import Mathlib

/-!
# Verification of the RPC throttling / failover core

Shallow embedding of `src/tokenBucket.ts` and `src/rpcThrottler.ts`
(token bucket, per-chain admission queue, endpoint set with rotation and
scoring-based selection, and the `executeWithRPCRotation` orchestrator).

JavaScript numbers are modelled as rationals (`ℚ`); `Date.now()` readings
are explicit `now` parameters (milliseconds).  Asynchronous sleeps
(`setTimeout`) take an explicit `wake` time; the JS runtime guarantees
`wake ≥ now + delay`, which appears as a well-timedness hypothesis.
-/

namespace LiquidationIndexer

/-- Embeds class `TokenBucket` of `src/tokenBucket.ts` (fields `capacity`,
`tokens`, `refillRate` in tokens per second, `lastRefill` in ms).  The
`identifier` field is logging-only and omitted. -/
structure TokenBucket where
  capacity : ℚ
  tokens : ℚ
  refillRate : ℚ
  lastRefill : ℚ
deriving DecidableEq

/-- The constructor `new TokenBucket(capacity, refillRate, _)`: starts full,
`lastRefill = Date.now()`. -/
def TokenBucket.create (capacity refillRate now : ℚ) : TokenBucket :=
  { capacity := capacity, tokens := capacity, refillRate := refillRate, lastRefill := now }

/-- `TokenBucket.refill`: adds `elapsedSeconds * refillRate` tokens, capped at
`capacity`; a non-positive delta leaves the bucket unchanged (the code guards
`if (tokensToAdd > 0)`). -/
def TokenBucket.refill (b : TokenBucket) (now : ℚ) : TokenBucket :=
  let timeSinceLastRefill := (now - b.lastRefill) / 1000
  let tokensToAdd := timeSinceLastRefill * b.refillRate
  if 0 < tokensToAdd then
    { b with tokens := min b.capacity (b.tokens + tokensToAdd), lastRefill := now }
  else b

/-- `TokenBucket.tryConsume`: refill, then consume one token when
`tokens >= 1`, returning whether a token was consumed. -/
def TokenBucket.tryConsume (b : TokenBucket) (now : ℚ) : Bool × TokenBucket :=
  let b := b.refill now
  if 1 ≤ b.tokens then (true, { b with tokens := b.tokens - 1 })
  else (false, b)

/-- The state snapshot returned by `TokenBucket.getState`. -/
structure BucketState where
  tokens : ℚ
  capacity : ℚ
  refillRate : ℚ
  utilizationPercent : ℚ
deriving DecidableEq

/-- `TokenBucket.getState`: refills, then reports a snapshot (the refill is a
mutation, so the updated bucket is returned alongside the snapshot). -/
def TokenBucket.getState (b : TokenBucket) (now : ℚ) : BucketState × TokenBucket :=
  let b := b.refill now
  ({ tokens := b.tokens, capacity := b.capacity, refillRate := b.refillRate,
     utilizationPercent := (b.capacity - b.tokens) / b.capacity * 100 }, b)

/-- `TokenBucket.waitForToken`: refill at call time `now`; if a token is
available consume it and report a 0ms wait.  Otherwise compute
`waitTimeMs = (1 - tokens) / refillRate * 1000`, sleep (waking at `wake`),
refill again and consume unconditionally, reporting `waitTimeMs`. -/
def TokenBucket.waitForToken (b : TokenBucket) (now wake : ℚ) : ℚ × TokenBucket :=
  let b := b.refill now
  if 1 ≤ b.tokens then (0, { b with tokens := b.tokens - 1 })
  else
    let tokensNeeded := 1 - b.tokens
    let waitTimeMs := tokensNeeded / b.refillRate * 1000
    let b2 := b.refill wake
    (waitTimeMs, { b2 with tokens := b2.tokens - 1 })

/-- `TokenBucket.reset`: back to full capacity, refill clock restarted. -/
def TokenBucket.reset (b : TokenBucket) (now : ℚ) : TokenBucket :=
  { b with tokens := b.capacity, lastRefill := now }

/-- One sequential operation applied to a bucket, with its `Date.now()`
reading(s). -/
inductive BucketOp where
  | tryConsume (now : ℚ)
  | waitForToken (now wake : ℚ)
  | getState (now : ℚ)
  | reset (now : ℚ)
deriving DecidableEq

/-- State transformer of a single bucket operation. -/
def applyBucketOp (b : TokenBucket) : BucketOp → TokenBucket
  | .tryConsume now => (b.tryConsume now).2
  | .waitForToken now wake => (b.waitForToken now wake).2
  | .getState now => (b.getState now).2
  | .reset now => b.reset now

/-- Runs a sequence of bucket operations (each completes before the next
starts: the sequential fragment of the cooperative model). -/
def runBucketOps (b : TokenBucket) : List BucketOp → TokenBucket
  | [] => b
  | op :: ops => runBucketOps (applyBucketOp b op) ops

/-- An operation is well-timed when its clock readings are consistent with
the runtime: `Date.now()` does not lag the bucket's refill clock, and a
`setTimeout(waitTimeMs)` wake-up happens no earlier than `now + waitTimeMs`
(needed only when the bucket was short of a token at call time). -/
def wellTimedOp (b : TokenBucket) : BucketOp → Bool
  | .waitForToken now wake =>
      let br := b.refill now
      decide (1 ≤ br.tokens) ||
        (decide (b.lastRefill ≤ now) &&
         decide (now + (1 - br.tokens) / br.refillRate * 1000 ≤ wake))
  | .tryConsume _ => true
  | .getState _ => true
  | .reset _ => true

/-- Every operation of the run is well-timed in the state where it fires. -/
def wellTimedRun (b : TokenBucket) : List BucketOp → Bool
  | [] => true
  | op :: ops => wellTimedOp b op && wellTimedRun (applyBucketOp b op) ops

/-- The C2 invariant on one bucket. -/
def bucketInv (b : TokenBucket) : Prop :=
  0 ≤ b.tokens ∧ b.tokens ≤ b.capacity

/-- The bucket of the C2 counterexample: `0 < capacity < 1`. -/
def halfBucket : TokenBucket := TokenBucket.create (1/2) 1 0

/-- The run of the C2 counterexample: one `waitForToken` whose sleep wakes
exactly `waitTimeMs = 500` ms later. -/
def halfBucketOps : List BucketOp := [BucketOp.waitForToken 0 500]

/-! ## RPC manager: endpoint sets, scoring-based selection, rotation
(`src/rpcThrottler.ts`, `RPCManager` and `executeWithRPCRotation`). -/

/-- Embeds interface `RPCEndpoint` (fields `url`, `failures`,
`totalRequests`, `successfulRequests`, `tokenBucket`, `lastUsed`). -/
structure RPCEndpoint where
  url : String
  failures : ℕ
  totalRequests : ℕ
  successfulRequests : ℕ
  tokenBucket : TokenBucket
  lastUsed : ℚ
deriving DecidableEq

/-- Embeds interface `ChainRPCConfig` (fields `endpoints`, `currentIndex`). -/
structure ChainRPCConfig where
  endpoints : List RPCEndpoint
  currentIndex : ℕ
deriving DecidableEq

/-- Placeholder for out-of-range list access.  In the JS source
`endpoints[currentIndex]` with an out-of-range index crashes; every state
reachable from `ensureChainConfig` keeps `currentIndex` in range (claim C10),
so this default is never produced by the modelled operations. -/
def defaultEndpoint : RPCEndpoint :=
  { url := "", failures := 0, totalRequests := 0, successfulRequests := 0,
    tokenBucket := TokenBucket.create 0 0 0, lastUsed := 0 }

/-- The loop body of `RPCManager.selectBestRPC` for one endpoint: a
`tryConsume` probe (which consumes a token when one is available — the
"give back the token" comment is followed only by a `getState()` refresh,
which does not return the token), a conditional `getState()`, a second
`getState()` whose snapshot feeds the score, then the weighted-sum score.
Returns the score and the endpoint with its (mutated) bucket. -/
def scoreEndpoint (ep : RPCEndpoint) (now : ℚ) : ℚ × RPCEndpoint :=
  let tc := ep.tokenBucket.tryConsume now
  let hasTokens := tc.1
  let b1 := tc.2
  let b2 := if hasTokens then (b1.getState now).2 else b1
  let tokenState := (b2.getState now).1
  let b3 := (b2.getState now).2
  let tokensAvailable := tokenState.tokens
  let utilizationPercent := tokenState.utilizationPercent
  let failureRate : ℚ :=
    if 0 < ep.totalRequests then (ep.failures : ℚ) / (ep.totalRequests : ℚ) else 0
  let timeSinceLastUse := now - ep.lastUsed
  let base : ℚ :=
    if 1 ≤ tokensAvailable then 1000 + tokensAvailable * 10 else -1000
  let score := base - utilizationPercent * 5 - failureRate * 500 +
    min (timeSinceLastUse / 1000) 100
  (score, { ep with tokenBucket := b3 })

/-- Scores every endpoint in order, threading the bucket mutations, and
returns the updated endpoints together with the score list. -/
def selectScan (now : ℚ) : List RPCEndpoint → List RPCEndpoint × List ℚ
  | [] => ([], [])
  | ep :: rest =>
      let (s, ep2) := scoreEndpoint ep now
      let (rest2, scores) := selectScan now rest
      (ep2 :: rest2, s :: scores)

/-- The `if (score > bestScore)` accumulation of `selectBestRPC`:
`bi` is `bestIndex`, the `Option ℚ` accumulator is `bestScore`
(`none` plays `-Infinity`, which every finite score beats). -/
def argmaxGo : List ℚ → ℕ → ℕ → Option ℚ → ℕ
  | [], _, bi, _ => bi
  | s :: rest, i, _, none => argmaxGo rest (i + 1) i (some s)
  | s :: rest, i, bi, some bs =>
      if bs < s then argmaxGo rest (i + 1) i (some s)
      else argmaxGo rest (i + 1) bi (some bs)

/-- `RPCManager.selectBestRPC`: `none` when the chain has no endpoints,
otherwise the best-scoring index (ties keep the earlier index; `bestIndex`
starts at `currentIndex`) together with the config whose endpoint buckets
were mutated by the probing. -/
def selectBestRPC (cfg : ChainRPCConfig) (now : ℚ) : Option (ℕ × ChainRPCConfig) :=
  if cfg.endpoints.isEmpty then none
  else
    let (eps2, scores) := selectScan now cfg.endpoints
    some (argmaxGo scores 0 cfg.currentIndex none, { cfg with endpoints := eps2 })

/-- `RPCManager.selectBestAvailableRPC`: moves `currentIndex` to the best
index (the source skips the assignment when it is unchanged, which is the
same state). -/
def selectBestAvailableRPC (cfg : ChainRPCConfig) (now : ℚ) : ChainRPCConfig :=
  match selectBestRPC cfg now with
  | none => cfg
  | some (bi, cfg2) => { cfg2 with currentIndex := bi }

/-- `RPCManager.getCurrentRPCUrl` (after `ensureChainConfig`). -/
def getCurrentRPCUrl (cfg : ChainRPCConfig) : String :=
  if cfg.endpoints.isEmpty then "https://eth.drpc.org"
  else (cfg.endpoints.getD cfg.currentIndex defaultEndpoint).url

/-- `RPCManager.rotateToNextRPC`: increments `failures` of the current
endpoint and advances `currentIndex` with wraparound.  (The source also
returns the new URL, which is `getCurrentRPCUrl` of the result.) -/
def rotateToNextRPC (cfg : ChainRPCConfig) : ChainRPCConfig :=
  if cfg.endpoints.isEmpty then cfg
  else
    let ep := cfg.endpoints.getD cfg.currentIndex defaultEndpoint
    let eps2 := cfg.endpoints.set cfg.currentIndex { ep with failures := ep.failures + 1 }
    { endpoints := eps2, currentIndex := (cfg.currentIndex + 1) % eps2.length }

/-- `RPCManager.resetFailures`: chain-wide reset of `failures` to 0. -/
def resetFailures (cfg : ChainRPCConfig) : ChainRPCConfig :=
  { cfg with endpoints := cfg.endpoints.map (fun ep => { ep with failures := 0 }) }

/-- `RPCManager.waitForRPCToken`: waits on the current endpoint's bucket
(0 and no mutation when the chain has no endpoints). -/
def waitForRPCToken (cfg : ChainRPCConfig) (now wake : ℚ) : ℚ × ChainRPCConfig :=
  if cfg.endpoints.isEmpty then (0, cfg)
  else
    let ep := cfg.endpoints.getD cfg.currentIndex defaultEndpoint
    let wb := ep.tokenBucket.waitForToken now wake
    (wb.1, { cfg with
      endpoints := cfg.endpoints.set cfg.currentIndex { ep with tokenBucket := wb.2 } })

/-- `RPCManager.recordRequest`: bumps `totalRequests`, stamps `lastUsed`,
and bumps `successfulRequests` when `success`. -/
def recordRequest (cfg : ChainRPCConfig) (success : Bool) (now : ℚ) : ChainRPCConfig :=
  if cfg.endpoints.isEmpty then cfg
  else
    let ep := cfg.endpoints.getD cfg.currentIndex defaultEndpoint
    let ep2 := { ep with
      totalRequests := ep.totalRequests + 1,
      lastUsed := now,
      successfulRequests := ep.successfulRequests + (if success then 1 else 0) }
    { cfg with endpoints := cfg.endpoints.set cfg.currentIndex ep2 }

/-- `RPCManager.getAllRPCUrls` (after `ensureChainConfig`). -/
def getAllRPCUrls (cfg : ChainRPCConfig) : List String :=
  cfg.endpoints.map (fun ep => ep.url)

/-! ### Configuration resolution (`getRPCUrlsForChain`, `ensureChainConfig`) -/

/-- The environment slice read by `RPCManager`: `RPC_URL_{chainId}` and the
generic `RPC_URL` (an unset variable is `none`). -/
structure RPCEnv where
  rpcUrlForChain : ℤ → Option String
  rpcUrl : Option String

/-- Modelled JS `String.prototype.split(",")` as structural recursion over
the characters (JS `split` keeps empty segments: `",".split(",")` is
`["", ""]`).  Lean core's `String.splitOn` has the same behaviour but does
not reduce in the kernel, hence this executable model. -/
def splitOnCommaAux : List Char → List Char → List (List Char)
  | [], acc => [acc.reverse]
  | c :: cs, acc =>
      if c = ',' then acc.reverse :: splitOnCommaAux cs []
      else splitOnCommaAux cs (c :: acc)

/-- JS `s.split(",")`. -/
def jsSplitComma (s : String) : List String :=
  (splitOnCommaAux s.data []).map String.mk

/-- Modelled JS `String.prototype.trim`: drops leading and trailing
whitespace. -/
def jsTrim (s : String) : String :=
  String.mk (((s.data.dropWhile Char.isWhitespace).reverse.dropWhile
    Char.isWhitespace).reverse)

/-- `RPCManager.parseRPCUrls`: `[]` for an unset or blank variable
(JS `!envValue` is true for `undefined` and for `""`), otherwise the
comma-separated values, trimmed, with empty entries dropped. -/
def parseRPCUrls (envValue : Option String) : List String :=
  match envValue with
  | none => []
  | some v =>
      if v = "" ∨ jsTrim v = "" then []
      else ((jsSplitComma v).map jsTrim).filter (fun u => 0 < u.length)

/-- The `defaultRPCs` table from the `RPCManager` constructor (a missing
chain id is JS `undefined`, modelled as `[]`, which fails the
`defaultUrls && defaultUrls.length > 0` test exactly like `undefined`). -/
def defaultRPCs (chainId : ℤ) : List String :=
  if chainId = 1 then ["https://eth.drpc.org"]
  else if chainId = 10 then ["https://optimism.drpc.org"]
  else if chainId = 42161 then ["https://arbitrum.drpc.org"]
  else if chainId = 137 then ["https://polygon.drpc.org"]
  else if chainId = 8453 then ["https://base.drpc.org"]
  else if chainId = 100 then ["https://gnosis.drpc.org"]
  else if chainId = 59144 then ["https://linea.drpc.org"]
  else if chainId = 534352 then ["https://scroll.drpc.org"]
  else if chainId = 43114 then ["https://avalanche.drpc.org"]
  else if chainId = 56 then ["https://bsc.drpc.org"]
  else []

/-- `RPCManager.getRPCUrlsForChain`: per-chain env list, else the built-in
default, else the generic `RPC_URL` when truthy (note: its *parse* may
still be empty), else the hardcoded fallback. -/
def getRPCUrlsForChain (env : RPCEnv) (chainId : ℤ) : List String :=
  let parsedUrls := parseRPCUrls (env.rpcUrlForChain chainId)
  if 0 < parsedUrls.length then parsedUrls
  else
    let defaultUrls := defaultRPCs chainId
    if 0 < defaultUrls.length then defaultUrls
    else
      match env.rpcUrl with
      | some genericDefault =>
          if genericDefault ≠ "" then parseRPCUrls (some genericDefault)
          else ["https://eth.drpc.org"]
      | none => ["https://eth.drpc.org"]

/-- `RPCManager.ensureChainConfig`: fresh endpoints (zero counters,
`lastUsed = 0`, full bucket from `TokenBucketFactory.createForRPC` with the
chain's resolved capacity and rate), `currentIndex = 0`. -/
def mkChainConfig (urls : List String) (now capacity refillRate : ℚ) : ChainRPCConfig :=
  { endpoints := urls.map (fun url =>
      { url := url, failures := 0, totalRequests := 0, successfulRequests := 0,
        tokenBucket := TokenBucket.create capacity refillRate now, lastUsed := 0 }),
    currentIndex := 0 }

/-! ### The orchestrator `executeWithRPCRotation` -/

/-- The `Date.now()` readings of one attempt of the retry loop, plus the
wake time of the per-endpoint token sleep. -/
structure AttemptTimes where
  tSel : ℚ
  tWait : ℚ
  tWake : ℚ
  tRec : ℚ
  tEnd : ℚ
deriving DecidableEq

/-- The aggregated error thrown after all attempts fail:
`All RPC endpoints failed for chain {id}. Tried {N} endpoints: {urls}.
Last error: {msg}` — JS `lastError?.message || "Unknown error"` substitutes
`"Unknown error"` when there was no error or its message is empty. -/
def allFailedMessage (chainId : ℤ) (urls : List String) (lastError : Option String) : String :=
  "All RPC endpoints failed for chain " ++ toString chainId ++ ". Tried " ++
    toString urls.length ++ " endpoints: " ++ String.intercalate ", " urls ++
    ". Last error: " ++
    (match lastError with
     | some m => if m = "" then "Unknown error" else m
     | none => "Unknown error")

/-- The retry loop of `executeWithRPCRotation`, recursing on
`remaining = maxAttempts - attempt` (the loop enters iff `remaining > 0`;
the source's rotation guard `attempt < maxAttempts - 1` is
`0 < remaining` at an iteration holding `remaining + 1`).  `script` gives,
per attempt index, the clock readings and the outcome of the caller's
operation; the connection-handle construction is the collaborator's and
has no effect on this state. -/
def execLoop {α : Type} (chainId : ℤ) (script : ℕ → AttemptTimes × Except String α) :
    ℕ → ℕ → Option String → ChainRPCConfig → Except String α × ChainRPCConfig
  | 0, _, lastError, cfg =>
      (Except.error (allFailedMessage chainId (getAllRPCUrls cfg) lastError), cfg)
  | remaining + 1, attempt, _, cfg =>
      let tm := (script attempt).1
      let outcome := (script attempt).2
      let cfg1 := selectBestAvailableRPC cfg tm.tSel
      let cfg2 := (waitForRPCToken cfg1 tm.tWait tm.tWake).2
      let cfg3 := recordRequest cfg2 false tm.tRec
      match outcome with
      | Except.ok v => (Except.ok v, resetFailures (recordRequest cfg3 true tm.tEnd))
      | Except.error e =>
          let cfg4 := if 0 < remaining then rotateToNextRPC cfg3 else cfg3
          execLoop chainId script remaining (attempt + 1) (some e) cfg4

/-- `executeWithRPCRotation` (the chain-level admission wrapping is the
separate `RPCRequestQueue` model below): `maxAttempts = getRPCCount`,
attempts indexed from 0, `lastError` starts `null`. -/
def executeWithRPCRotation {α : Type} (chainId : ℤ) (cfg : ChainRPCConfig)
    (script : ℕ → AttemptTimes × Except String α) : Except String α × ChainRPCConfig :=
  execLoop chainId script cfg.endpoints.length 0 none cfg

/-- The in-range-index invariant of a chain config (claim C10):
`endpoints[currentIndex]` is a valid access. -/
def idxInv (cfg : ChainRPCConfig) : Prop :=
  cfg.currentIndex < cfg.endpoints.length

/-! ### Per-chain admission queue (`RPCRequestQueue`) -/

/-- State of one chain's `RPCRequestQueue`: `maxConcurrent`,
`activeRequests` and the `pending` FIFO (as ids).  `enqueued` records every
id ever pushed to `pending` in arrival order and `started` the ids shifted
out of it in dequeue order — history variables for the FIFO property, not
fields of the source class.  The chain-level token bucket only delays an
admitted request and never changes these counts, so it is omitted here. -/
structure QueueState where
  maxConcurrent : ℕ
  activeRequests : ℕ
  pending : List ℕ
  started : List ℕ
  enqueued : List ℕ
deriving DecidableEq

/-- The synchronous tail of `onRequestComplete` after its decrement: if the
queue is non-empty and a slot is free, `processNextInQueue` shifts the head
and increments `activeRequests` before its first `await`. -/
def completeStep (s : QueueState) : QueueState :=
  match s.pending with
  | [] => s
  | id :: rest =>
      if s.activeRequests < s.maxConcurrent then
        { s with pending := rest,
                 activeRequests := s.activeRequests + 1,
                 started := s.started ++ [id] }
      else s

/-- A fresh queue (the `RPCRequestQueue` constructor). -/
def initQueue (maxConcurrent : ℕ) : QueueState :=
  { maxConcurrent := maxConcurrent, activeRequests := 0, pending := [],
    started := [], enqueued := [] }

/-- The atomic cooperative steps of the queue.  Under single-threaded
cooperative scheduling each of these blocks runs without suspension in the
source: `execute`'s capacity check flows synchronously into
`executeImmediate`'s increment; `queueRequest` only pushes; and
`onRequestComplete` decrements and (conditionally) shifts/increments before
any `await`.  A `complete` fires only for an in-flight request — each is
paired with exactly one earlier increment by the `try/finally` —
hence its `0 < activeRequests` guard. -/
inductive QStep : QueueState → QueueState → Prop
  | executeImmediate (s : QueueState) :
      s.activeRequests < s.maxConcurrent →
      QStep s { s with activeRequests := s.activeRequests + 1 }
  | queueRequest (s : QueueState) (id : ℕ) :
      ¬ s.activeRequests < s.maxConcurrent →
      QStep s { s with pending := s.pending ++ [id], enqueued := s.enqueued ++ [id] }
  | complete (s : QueueState) :
      0 < s.activeRequests →
      QStep s (completeStep { s with activeRequests := s.activeRequests - 1 })

/-- Reachability by cooperative interleavings of the queue steps. -/
inductive QReach : QueueState → QueueState → Prop
  | refl (s : QueueState) : QReach s s
  | tail {s t u : QueueState} : QReach s t → QStep t u → QReach s u

/-! ### Concrete inputs used by the claim analyses -/

/-- All `Date.now()` readings of an attempt at time 0 (an attempt executing
within one tick, with a 0ms token wait). -/
def zeroTimes : AttemptTimes :=
  { tSel := 0, tWait := 0, tWake := 0, tRec := 0, tEnd := 0 }

/-- C1 failing input: a fresh endpoint whose bucket has capacity 2, is full,
refills at 1 token/sec. -/
def c1endpoint : RPCEndpoint :=
  { url := "https://a.example", failures := 0, totalRequests := 0,
    successfulRequests := 0, tokenBucket := TokenBucket.create 2 1 0, lastUsed := 0 }

/-- C1 failing input: a one-endpoint chain. -/
def c1cfg : ChainRPCConfig := { endpoints := [c1endpoint], currentIndex := 0 }

/-- C3 failing input: a fresh endpoint with the default 50-capacity,
20/sec bucket. -/
def c3endpoint : RPCEndpoint :=
  { url := "https://a.example", failures := 0, totalRequests := 0,
    successfulRequests := 0, tokenBucket := TokenBucket.create 50 20 0, lastUsed := 0 }

/-- C3 failing input: a one-endpoint chain. -/
def c3cfg : ChainRPCConfig := { endpoints := [c3endpoint], currentIndex := 0 }

/-- C3 failing input: the caller's operation succeeds immediately. -/
def c3script : ℕ → AttemptTimes × Except String ℕ :=
  fun _ => (zeroTimes, Except.ok 42)

/-- C4 counterexample input: a fresh single endpoint. -/
def c4endpoint : RPCEndpoint :=
  { url := "https://only.example", failures := 0, totalRequests := 0,
    successfulRequests := 0, tokenBucket := TokenBucket.create 50 20 0, lastUsed := 0 }

/-- C4 counterexample input: a one-endpoint chain, so the one attempt is the
final attempt. -/
def c4cfg : ChainRPCConfig := { endpoints := [c4endpoint], currentIndex := 0 }

/-- C4 counterexample input: every attempt fails. -/
def c4script : ℕ → AttemptTimes × Except String ℕ :=
  fun _ => (zeroTimes, Except.error "boom")

/-- C5 counterexample: endpoint A with a full 50-token bucket. -/
def c5epA : RPCEndpoint :=
  { url := "https://a.example", failures := 0, totalRequests := 0,
    successfulRequests := 0, tokenBucket := TokenBucket.create 50 20 0, lastUsed := 0 }

/-- C5 counterexample: endpoint B rate-saturated (0 tokens). -/
def c5epB : RPCEndpoint :=
  { url := "https://b.example", failures := 0, totalRequests := 0,
    successfulRequests := 0,
    tokenBucket := { capacity := 50, tokens := 0, refillRate := 20, lastRefill := 0 },
    lastUsed := 0 }

/-- C5 counterexample: two endpoints, pointer at A. -/
def c5cfg : ChainRPCConfig := { endpoints := [c5epA, c5epB], currentIndex := 0 }

/-- C5 counterexample: the first attempt fails, any further attempt
succeeds. -/
def c5script : ℕ → AttemptTimes × Except String ℕ :=
  fun k => (zeroTimes, if k = 0 then Except.error "boom" else Except.ok 7)

/-- C8 witness input: two fresh endpoints. -/
def c8cfg : ChainRPCConfig :=
  { endpoints :=
      [{ url := "https://a.example", failures := 0, totalRequests := 0,
         successfulRequests := 0, tokenBucket := TokenBucket.create 50 20 0,
         lastUsed := 0 },
       { url := "https://b.example", failures := 0, totalRequests := 0,
         successfulRequests := 0, tokenBucket := TokenBucket.create 50 20 0,
         lastUsed := 0 }],
    currentIndex := 0 }

/-- C8 witness input: every attempt fails with a distinct message. -/
def c8script : ℕ → AttemptTimes × Except String ℕ :=
  fun k => (zeroTimes, Except.error (toString k))

/-- C10 counterexample environment: no per-chain override, and the generic
`RPC_URL` set to `","` — truthy in JS, yet parsing it yields no URLs. -/
def c10env : RPCEnv :=
  { rpcUrlForChain := fun _ => none, rpcUrl := some "," }

/-- C10 witness environment: nothing configured at all. -/
def c10emptyEnv : RPCEnv :=
  { rpcUrlForChain := fun _ => none, rpcUrl := none }

/-! ## Theorems: the token bucket (claims C2, C9) -/

theorem refill_capacity (b : TokenBucket) (now : ℚ) :
    (b.refill now).capacity = b.capacity := by
  unfold TokenBucket.refill; dsimp only; split <;> rfl

theorem refill_refillRate (b : TokenBucket) (now : ℚ) :
    (b.refill now).refillRate = b.refillRate := by
  unfold TokenBucket.refill; dsimp only; split <;> rfl

theorem refill_tokens_lower (b : TokenBucket) (now : ℚ) (h : 0 ≤ b.tokens)
    (hcap : 0 ≤ b.capacity) : 0 ≤ (b.refill now).tokens := by
  unfold TokenBucket.refill
  dsimp only
  split
  next hpos => exact le_min hcap (by linarith)
  next => exact h

theorem refill_tokens_upper (b : TokenBucket) (now : ℚ) (h : b.tokens ≤ b.capacity) :
    (b.refill now).tokens ≤ (b.refill now).capacity := by
  unfold TokenBucket.refill
  dsimp only
  split
  · exact min_le_left _ _
  · exact h

theorem refill_inv (b : TokenBucket) (now : ℚ) (h : bucketInv b) :
    bucketInv (b.refill now) := by
  obtain ⟨h0, h1⟩ := h
  refine ⟨refill_tokens_lower b now h0 (le_trans h0 h1), ?_⟩
  have := refill_tokens_upper b now h1
  rwa [refill_capacity] at this ⊢

theorem refill_lastRefill_le (b : TokenBucket) (now : ℚ) (h : b.lastRefill ≤ now) :
    (b.refill now).lastRefill ≤ now := by
  unfold TokenBucket.refill; dsimp only; split
  · exact le_rfl
  · exact h

theorem refill_tokens_ge_one (b : TokenBucket) (now : ℚ)
    (hadd : 1 - b.tokens ≤ (now - b.lastRefill) / 1000 * b.refillRate)
    (htk : b.tokens < 1) (hcap : 1 ≤ b.capacity) :
    1 ≤ (b.refill now).tokens := by
  unfold TokenBucket.refill; dsimp only
  have hpos : 0 < (now - b.lastRefill) / 1000 * b.refillRate :=
    lt_of_lt_of_le (by linarith) hadd
  rw [if_pos hpos]
  exact le_min hcap (by linarith)

theorem tryConsume_snd_capacity (b : TokenBucket) (now : ℚ) :
    ((b.tryConsume now).2).capacity = b.capacity := by
  unfold TokenBucket.tryConsume; dsimp only
  split <;> simp [refill_capacity]

theorem tryConsume_snd_refillRate (b : TokenBucket) (now : ℚ) :
    ((b.tryConsume now).2).refillRate = b.refillRate := by
  unfold TokenBucket.tryConsume; dsimp only
  split <;> simp [refill_refillRate]

theorem tryConsume_inv (b : TokenBucket) (now : ℚ) (h : bucketInv b) :
    bucketInv ((b.tryConsume now).2) := by
  have h1 := refill_inv b now h
  unfold TokenBucket.tryConsume; dsimp only
  split
  next htk =>
    exact ⟨by dsimp only; linarith, by dsimp only; linarith [h1.1, h1.2]⟩
  next => exact h1

theorem waitForToken_snd_capacity (b : TokenBucket) (now wake : ℚ) :
    ((b.waitForToken now wake).2).capacity = b.capacity := by
  unfold TokenBucket.waitForToken; dsimp only
  split <;> simp [refill_capacity]

theorem waitForToken_snd_refillRate (b : TokenBucket) (now wake : ℚ) :
    ((b.waitForToken now wake).2).refillRate = b.refillRate := by
  unfold TokenBucket.waitForToken; dsimp only
  split <;> simp [refill_refillRate]

theorem waitForToken_inv (b : TokenBucket) (now wake : ℚ)
    (hcap : 1 ≤ b.capacity) (hrate : 0 < b.refillRate)
    (hinv : bucketInv b)
    (hwt : wellTimedOp b (.waitForToken now wake) = true) :
    bucketInv ((b.waitForToken now wake).2) := by
  have hinv1 := refill_inv b now hinv
  have hc1 : (b.refill now).capacity = b.capacity := refill_capacity b now
  have hr1 : (b.refill now).refillRate = b.refillRate := refill_refillRate b now
  unfold TokenBucket.waitForToken; dsimp only
  split
  next htk =>
    exact ⟨by dsimp only; linarith, by dsimp only [hc1]; linarith [hinv1.2, hc1]⟩
  next htk =>
    push_neg at htk
    simp only [wellTimedOp, Bool.or_eq_true, Bool.and_eq_true, decide_eq_true_eq] at hwt
    rcases hwt with hwt | ⟨hlr, hwk⟩
    · exact absurd hwt (not_le_of_lt htk)
    · -- the sleep lasted at least waitTimeMs, so the second refill restores ≥ 1 token
      set b1 := b.refill now with hb1
      have hl1 : b1.lastRefill ≤ now := refill_lastRefill_le b now hlr
      have h1000 : (0:ℚ) < 1000 := by norm_num
      rw [hr1] at hwk
      have hstep : (1 - b1.tokens) * 1000 ≤ (wake - now) * b.refillRate := by
        have h2 : (1 - b1.tokens) / b.refillRate * 1000 ≤ wake - now := by linarith
        rw [div_mul_eq_mul_div, div_le_iff₀ hrate] at h2
        linarith
      have hadd : 1 - b1.tokens ≤ (wake - b1.lastRefill) / 1000 * b1.refillRate := by
        rw [hr1, div_mul_eq_mul_div, le_div_iff₀ h1000]
        have h4 : (wake - now) * b.refillRate ≤ (wake - b1.lastRefill) * b.refillRate :=
          mul_le_mul_of_nonneg_right (by linarith) (le_of_lt hrate)
        linarith
      have hge : 1 ≤ (b1.refill wake).tokens :=
        refill_tokens_ge_one b1 wake hadd htk (by rw [hc1]; exact hcap)
      have hub : (b1.refill wake).tokens ≤ (b1.refill wake).capacity :=
        refill_tokens_upper b1 wake hinv1.2
      have hc2 : (b1.refill wake).capacity = b.capacity := by
        rw [refill_capacity, hc1]
      constructor
      · dsimp only; linarith
      · dsimp only; rw [hc2] at hub ⊢; linarith

theorem getState_snd_eq (b : TokenBucket) (now : ℚ) :
    ((b.getState now).2) = b.refill now := rfl

theorem reset_inv (b : TokenBucket) (now : ℚ) (hcap : 0 ≤ b.capacity) :
    bucketInv (b.reset now) :=
  ⟨hcap, le_rfl⟩

theorem applyBucketOp_capacity (b : TokenBucket) (op : BucketOp) :
    (applyBucketOp b op).capacity = b.capacity := by
  cases op with
  | tryConsume now => exact tryConsume_snd_capacity b now
  | waitForToken now wake => exact waitForToken_snd_capacity b now wake
  | getState now => exact refill_capacity b now
  | reset now => rfl

theorem applyBucketOp_refillRate (b : TokenBucket) (op : BucketOp) :
    (applyBucketOp b op).refillRate = b.refillRate := by
  cases op with
  | tryConsume now => exact tryConsume_snd_refillRate b now
  | waitForToken now wake => exact waitForToken_snd_refillRate b now wake
  | getState now => exact refill_refillRate b now
  | reset now => rfl

theorem applyBucketOp_inv (b : TokenBucket) (op : BucketOp)
    (hcap : 1 ≤ b.capacity) (hrate : 0 < b.refillRate)
    (hinv : bucketInv b) (hwt : wellTimedOp b op = true) :
    bucketInv (applyBucketOp b op) := by
  cases op with
  | tryConsume now => exact tryConsume_inv b now hinv
  | waitForToken now wake => exact waitForToken_inv b now wake hcap hrate hinv hwt
  | getState now => exact refill_inv b now hinv
  | reset now => exact reset_inv b now (by linarith)

/-- C2 (amended to `capacity ≥ 1`): for every RateBucket with capacity ≥ 1 and
refillRate > 0, after any sequence of tryConsume / waitForToken / getState /
reset operations run sequentially with well-timed clock readings (every
`setTimeout(waitMs)` wakes no earlier than `now + waitMs`), the invariant
`0 ≤ tokens ≤ capacity` holds whenever an operation returns; in particular
`waitForToken` never returns with post-call tokens < 0. -/
theorem C2_bucket_invariant (b : TokenBucket) (ops : List BucketOp)
    (hcap : 1 ≤ b.capacity) (hrate : 0 < b.refillRate)
    (hinv : bucketInv b) (hwt : wellTimedRun b ops = true) :
    bucketInv (runBucketOps b ops) := by
  induction ops generalizing b with
  | nil => exact hinv
  | cons op rest ih =>
    simp only [wellTimedRun, Bool.and_eq_true] at hwt
    refine ih (applyBucketOp b op) ?_ ?_ ?_ hwt.2
    · rw [applyBucketOp_capacity]; exact hcap
    · rw [applyBucketOp_refillRate]; exact hrate
    · exact applyBucketOp_inv b op hcap hrate hinv hwt.1

/-- Witness for C2 at a concrete bucket (capacity 2, rate 1) and a concrete
well-timed run. -/
theorem C2_bucket_invariant_witness :
    bucketInv (runBucketOps (TokenBucket.create 2 1 0)
      [BucketOp.tryConsume 0, BucketOp.tryConsume 1]) :=
  C2_bucket_invariant (TokenBucket.create 2 1 0)
    [BucketOp.tryConsume 0, BucketOp.tryConsume 1]
    one_le_two zero_lt_one ⟨zero_le_two, le_rfl⟩ rfl


/-- Counterexample to C2 as stated: a bucket with `0 < capacity < 1`
(capacity 1/2, refill rate 1/sec, freshly full) satisfies every hypothesis of
the claim, yet a single well-timed `waitForToken` returns with
tokens = -1/2 < 0: the claim's bound `capacity > 0` is too weak, the code
needs `capacity ≥ 1`. -/
theorem C2_counterexample :
    0 < halfBucket.capacity ∧ 0 < halfBucket.refillRate ∧ bucketInv halfBucket ∧
      wellTimedRun halfBucket halfBucketOps = true ∧
      (runBucketOps halfBucket halfBucketOps).tokens < 0 := by
  refine ⟨by norm_num [halfBucket, TokenBucket.create],
          by norm_num [halfBucket, TokenBucket.create],
          ⟨by norm_num [halfBucket, TokenBucket.create],
           le_rfl⟩, ?_, ?_⟩
  · simp only [halfBucket, halfBucketOps, wellTimedRun, wellTimedOp,
      applyBucketOp, TokenBucket.create, TokenBucket.refill,
      Bool.and_eq_true, Bool.or_eq_true, decide_eq_true_eq]
    norm_num
  · simp only [halfBucket, halfBucketOps, runBucketOps, applyBucketOp,
      TokenBucket.create, TokenBucket.waitForToken, TokenBucket.refill]
    norm_num

/-- C9: `tryConsume` (after its lazy refill) returns true iff the post-refill
token count is ≥ 1; in that case it decrements tokens by exactly 1, otherwise
it leaves the refilled state unchanged.  Capacity and refill rate are never
touched. -/
theorem C9_tryConsume_spec (b : TokenBucket) (now : ℚ) :
    (((b.tryConsume now).1 = true) ↔ 1 ≤ (b.refill now).tokens) ∧
    ((b.tryConsume now).2 =
      if 1 ≤ (b.refill now).tokens then
        { b.refill now with tokens := (b.refill now).tokens - 1 }
      else b.refill now) := by
  unfold TokenBucket.tryConsume
  dsimp only
  split
  next h => simp [h]
  next h => simp [h]

/-! ## Theorems: selection, rotation and the orchestrator
(claims C1, C3, C4, C5, C8, C10) -/

/-- C1 (code bug): one selection pass over a fresh one-endpoint chain
(bucket capacity 2, full, at `now = 0`) leaves the endpoint's token count at
1, while the claimed pure pass — at most a lazy refill, which at the same
instant changes nothing — leaves it at 2.  `selectBestRPC`'s `tryConsume`
probe consumes a token and the subsequent `getState()` (contrary to its
"give back the token" comment) never returns it. -/
theorem C1_selection_consumes_token :
    ((selectBestAvailableRPC c1cfg 0).endpoints.getD 0 defaultEndpoint).tokenBucket.tokens = 1 ∧
    ((c1cfg.endpoints.getD 0 defaultEndpoint).tokenBucket.refill 0).tokens = 2 := by
  constructor
  · norm_num [c1cfg, c1endpoint, selectBestAvailableRPC, selectBestRPC, selectScan,
      scoreEndpoint, argmaxGo, TokenBucket.create, TokenBucket.tryConsume,
      TokenBucket.getState, TokenBucket.refill, min_def]
  · norm_num [c1cfg, c1endpoint, TokenBucket.create, TokenBucket.refill]

/-- C3 (code bug): a single successful attempt returns the operation's
result immediately, leaves `successfulRequests = 1` and all `failures = 0`
as claimed — but `totalRequests` ends at 2, not 1, because the loop calls
`recordRequest(chainId, false)` before the attempt and `recordRequest`
appends a new record rather than updating the first one as its
"Will update to true on success" comment says. -/
theorem C3_success_double_counts :
    (executeWithRPCRotation 1 c3cfg c3script).1 = Except.ok 42 ∧
    ((executeWithRPCRotation 1 c3cfg c3script).2.endpoints.getD 0 defaultEndpoint).totalRequests = 2 ∧
    ((executeWithRPCRotation 1 c3cfg c3script).2.endpoints.getD 0 defaultEndpoint).successfulRequests = 1 ∧
    ((executeWithRPCRotation 1 c3cfg c3script).2.endpoints.getD 0 defaultEndpoint).failures = 0 := by
  refine ⟨?_, ?_, ?_, ?_⟩ <;>
    norm_num [executeWithRPCRotation, execLoop, c3cfg, c3endpoint, c3script, zeroTimes,
      selectBestAvailableRPC, selectBestRPC, selectScan, scoreEndpoint, argmaxGo,
      waitForRPCToken, recordRequest, resetFailures, rotateToNextRPC, getAllRPCUrls,
      TokenBucket.create, TokenBucket.tryConsume, TokenBucket.getState,
      TokenBucket.refill, TokenBucket.waitForToken, min_def]

theorem getD_set_self {α : Type} (l : List α) (i : ℕ) (a d : α) (h : i < l.length) :
    (l.set i a).getD i d = a := by
  induction l generalizing i with
  | nil => simp at h
  | cons x xs ih =>
    cases i with
    | zero => rfl
    | succ n => simpa using ih n (by simpa using h)

/-- C4 counterexample: on a one-endpoint chain (so the only attempt is the
final attempt) a failing orchestrated call does run the attempt
(`totalRequests = 1`) and rejects, yet the failed endpoint's `failures`
stays 0 and `currentIndex` stays 0: the rotation is skipped on the final
attempt by the `attempt < maxAttempts - 1` guard, contradicting the claim's
"including the final attempt". -/
theorem C4_counterexample :
    (executeWithRPCRotation 1 c4cfg c4script).1 =
      Except.error (allFailedMessage 1 ["https://only.example"] (some "boom")) ∧
    ((executeWithRPCRotation 1 c4cfg c4script).2.endpoints.getD 0 defaultEndpoint).failures = 0 ∧
    (executeWithRPCRotation 1 c4cfg c4script).2.currentIndex = 0 ∧
    ((executeWithRPCRotation 1 c4cfg c4script).2.endpoints.getD 0 defaultEndpoint).totalRequests = 1 := by
  refine ⟨?_, ?_, ?_, ?_⟩ <;>
    norm_num [executeWithRPCRotation, execLoop, c4cfg, c4endpoint, c4script, zeroTimes,
      selectBestAvailableRPC, selectBestRPC, selectScan, scoreEndpoint, argmaxGo,
      waitForRPCToken, recordRequest, resetFailures, rotateToNextRPC, getAllRPCUrls,
      TokenBucket.create, TokenBucket.tryConsume, TokenBucket.getState,
      TokenBucket.refill, TokenBucket.waitForToken, min_def]

/-- C4 (amended: every failed attempt *except the final one*): a failing
attempt that is not the last (`0 < r` remaining after it, i.e.
`attempt < maxAttempts - 1`) continues with `rotateToNextRPC` applied to the
attempt's post-state, and `rotateToNextRPC` increments exactly the current
endpoint's `failures` and advances `currentIndex` by one with wraparound. -/
theorem C4_rotation_amended {α : Type} (chainId : ℤ)
    (script : ℕ → AttemptTimes × Except String α) (r attempt : ℕ)
    (lastError : Option String) (cfg : ChainRPCConfig) (tm : AttemptTimes) (e : String)
    (hs : script attempt = (tm, Except.error e)) (hrot : 0 < r) :
    (execLoop chainId script (r + 1) attempt lastError cfg =
      execLoop chainId script r (attempt + 1) (some e)
        (rotateToNextRPC (recordRequest
          ((waitForRPCToken (selectBestAvailableRPC cfg tm.tSel) tm.tWait tm.tWake).2)
          false tm.tRec))) ∧
    (∀ c : ChainRPCConfig, c.endpoints ≠ [] → c.currentIndex < c.endpoints.length →
      ((rotateToNextRPC c).endpoints.getD c.currentIndex defaultEndpoint).failures =
        (c.endpoints.getD c.currentIndex defaultEndpoint).failures + 1 ∧
      (rotateToNextRPC c).currentIndex = (c.currentIndex + 1) % c.endpoints.length) := by
  constructor
  · simp only [execLoop, hs, if_pos hrot]
  · intro c hne hlt
    unfold rotateToNextRPC
    rw [if_neg (by simpa [List.isEmpty_iff] using hne)]
    dsimp only
    constructor
    · rw [getD_set_self _ _ _ _ hlt]
    · simp [List.length_set]

/-- Witness for the amended C4 at the concrete failing one-attempt input
(remaining = 1 after the failing attempt, so it is not final). -/
theorem C4_rotation_amended_witness :
    (execLoop 1 c4script (1 + 1) 0 none c4cfg =
      execLoop 1 c4script 1 (0 + 1) (some "boom")
        (rotateToNextRPC (recordRequest
          ((waitForRPCToken (selectBestAvailableRPC c4cfg zeroTimes.tSel)
            zeroTimes.tWait zeroTimes.tWake).2)
          false zeroTimes.tRec))) ∧
    (∀ c : ChainRPCConfig, c.endpoints ≠ [] → c.currentIndex < c.endpoints.length →
      ((rotateToNextRPC c).endpoints.getD c.currentIndex defaultEndpoint).failures =
        (c.endpoints.getD c.currentIndex defaultEndpoint).failures + 1 ∧
      (rotateToNextRPC c).currentIndex = (c.currentIndex + 1) % c.endpoints.length) :=
  C4_rotation_amended 1 c4script 1 0 none c4cfg zeroTimes "boom" rfl Nat.one_pos

/-- C5 counterexample: two endpoints, A healthy and B rate-saturated; the
first attempt uses A and fails, rotation moves the pointer to B, but the
proactive reselection before the second attempt moves it straight back to A
(B has no tokens), so the next attempt's endpoint equals the one that just
failed: A serves both attempts (`totalRequests = 3`, counting the
double-record of the success) and B is never used (`totalRequests = 0`). -/
theorem C5_counterexample :
    1 < c5cfg.endpoints.length ∧
    (executeWithRPCRotation 1 c5cfg c5script).1 = Except.ok 7 ∧
    ((executeWithRPCRotation 1 c5cfg c5script).2.endpoints.getD 0 defaultEndpoint).totalRequests = 3 ∧
    ((executeWithRPCRotation 1 c5cfg c5script).2.endpoints.getD 1 defaultEndpoint).totalRequests = 0 := by
  refine ⟨by norm_num [c5cfg], ?_, ?_, ?_⟩ <;>
    norm_num [executeWithRPCRotation, execLoop, c5cfg, c5epA, c5epB, c5script, zeroTimes,
      selectBestAvailableRPC, selectBestRPC, selectScan, scoreEndpoint, argmaxGo,
      waitForRPCToken, recordRequest, resetFailures, rotateToNextRPC, getAllRPCUrls,
      TokenBucket.create, TokenBucket.tryConsume, TokenBucket.getState,
      TokenBucket.refill, TokenBucket.waitForToken, min_def]

/-- C5 (amended): after a failure on a chain with more than one endpoint,
*rotation* does advance the pointer to a different (in-range) index than the
failed endpoint's — but the proactive reselection that runs before the next
attempt may select the failed endpoint again (see the counterexample), so
only the rotated pointer is guaranteed to differ. -/
theorem C5_rotation_differs (cfg : ChainRPCConfig)
    (h1 : 1 < cfg.endpoints.length) (h2 : cfg.currentIndex < cfg.endpoints.length) :
    (rotateToNextRPC cfg).currentIndex ≠ cfg.currentIndex ∧
    (rotateToNextRPC cfg).currentIndex < (rotateToNextRPC cfg).endpoints.length := by
  have hne : cfg.endpoints ≠ [] := by
    intro h; rw [h] at h1; simp at h1
  unfold rotateToNextRPC
  rw [if_neg (by simpa [List.isEmpty_iff] using hne)]
  dsimp only
  simp only [List.length_set]
  constructor
  · by_cases hlt : cfg.currentIndex + 1 < cfg.endpoints.length
    · rw [Nat.mod_eq_of_lt hlt]; omega
    · have heq : cfg.currentIndex + 1 = cfg.endpoints.length := by omega
      rw [heq, Nat.mod_self]; omega
  · exact Nat.mod_lt _ (by omega)

/-- Witness for the amended C5 at the two-endpoint counterexample input. -/
theorem C5_rotation_differs_witness :
    (rotateToNextRPC c5cfg).currentIndex ≠ c5cfg.currentIndex ∧
    (rotateToNextRPC c5cfg).currentIndex < (rotateToNextRPC c5cfg).endpoints.length :=
  C5_rotation_differs c5cfg (by simp [c5cfg]) (by simp [c5cfg])

theorem map_set_of_eq {α β : Type} (l : List α) (i : ℕ) (a d : α) (f : α → β)
    (h : f a = f (l.getD i d)) : (l.set i a).map f = l.map f := by
  induction l generalizing i with
  | nil => rfl
  | cons x xs ih =>
    cases i with
    | zero =>
      simp only [List.getD_cons_zero] at h
      simp [List.set, h]
    | succ n =>
      simp only [List.getD_cons_succ] at h
      simp [List.set, ih n h]

theorem selectScan_fst_map_url (now : ℚ) (eps : List RPCEndpoint) :
    (selectScan now eps).1.map (fun ep => ep.url) = eps.map (fun ep => ep.url) := by
  induction eps with
  | nil => rfl
  | cons ep rest ih =>
    simp only [selectScan, List.map_cons]
    rw [ih]
    rfl

theorem selectScan_fst_length (now : ℚ) (eps : List RPCEndpoint) :
    (selectScan now eps).1.length = eps.length := by
  have := congrArg List.length (selectScan_fst_map_url now eps)
  simpa using this

theorem selectScan_snd_length (now : ℚ) (eps : List RPCEndpoint) :
    (selectScan now eps).2.length = eps.length := by
  induction eps with
  | nil => rfl
  | cons ep rest ih => simp [selectScan, ih]

theorem cfgUrls_selectBestAvailableRPC (cfg : ChainRPCConfig) (now : ℚ) :
    getAllRPCUrls (selectBestAvailableRPC cfg now) = getAllRPCUrls cfg := by
  by_cases h : cfg.endpoints.isEmpty
  · simp [selectBestAvailableRPC, selectBestRPC, h]
  · simp [selectBestAvailableRPC, selectBestRPC, h, getAllRPCUrls,
      selectScan_fst_map_url]

theorem cfgUrls_waitForRPCToken (cfg : ChainRPCConfig) (now wake : ℚ) :
    getAllRPCUrls ((waitForRPCToken cfg now wake).2) = getAllRPCUrls cfg := by
  unfold waitForRPCToken
  by_cases h : cfg.endpoints.isEmpty
  · simp [h]
  · simp only [h, Bool.false_eq_true, if_false, getAllRPCUrls]
    exact map_set_of_eq _ _ _ _ _ rfl

theorem cfgUrls_recordRequest (cfg : ChainRPCConfig) (s : Bool) (now : ℚ) :
    getAllRPCUrls (recordRequest cfg s now) = getAllRPCUrls cfg := by
  unfold recordRequest
  by_cases h : cfg.endpoints.isEmpty
  · simp [h]
  · simp only [h, Bool.false_eq_true, if_false, getAllRPCUrls]
    exact map_set_of_eq _ _ _ _ _ rfl

theorem cfgUrls_rotateToNextRPC (cfg : ChainRPCConfig) :
    getAllRPCUrls (rotateToNextRPC cfg) = getAllRPCUrls cfg := by
  unfold rotateToNextRPC
  by_cases h : cfg.endpoints.isEmpty
  · simp [h]
  · simp only [h, Bool.false_eq_true, if_false, getAllRPCUrls]
    exact map_set_of_eq _ _ _ _ _ rfl

theorem cfgUrls_resetFailures (cfg : ChainRPCConfig) :
    getAllRPCUrls (resetFailures cfg) = getAllRPCUrls cfg := by
  unfold getAllRPCUrls resetFailures
  dsimp only
  rw [List.map_map]
  rfl

/-- The combined state update of one failing attempt preserves the URL
list. -/
theorem cfgUrls_failStep (cfg : ChainRPCConfig) (tm : AttemptTimes) :
    getAllRPCUrls (recordRequest
        ((waitForRPCToken (selectBestAvailableRPC cfg tm.tSel) tm.tWait tm.tWake).2)
        false tm.tRec) = getAllRPCUrls cfg := by
  rw [cfgUrls_recordRequest, cfgUrls_waitForRPCToken, cfgUrls_selectBestAvailableRPC]

/-- When every attempt of the window fails, the loop rejects with the
aggregated message over the (unchanged) URL list and the last message. -/
theorem execLoop_all_fail {α : Type} (chainId : ℤ)
    (script : ℕ → AttemptTimes × Except String α) (msgs : ℕ → String) :
    ∀ (remaining attempt : ℕ) (lastError : Option String) (cfg : ChainRPCConfig),
    0 < remaining →
    (∀ k, attempt ≤ k → k < attempt + remaining → (script k).2 = Except.error (msgs k)) →
    (execLoop chainId script remaining attempt lastError cfg).1 =
      Except.error (allFailedMessage chainId (getAllRPCUrls cfg)
        (some (msgs (attempt + remaining - 1)))) := by
  intro remaining
  induction remaining with
  | zero => intro attempt lastError cfg h; omega
  | succ r ih =>
    intro attempt lastError cfg _ hfail
    have hk : (script attempt).2 = Except.error (msgs attempt) :=
      hfail attempt le_rfl (by omega)
    simp only [execLoop, hk]
    cases r with
    | zero =>
      simp only [Nat.lt_irrefl, if_false, execLoop]
      rw [cfgUrls_failStep]
      simp
    | succ r2 =>
      simp only [Nat.succ_pos, if_true]
      have hfail2 : ∀ k, attempt + 1 ≤ k → k < (attempt + 1) + (r2 + 1) →
          (script k).2 = Except.error (msgs k) := by
        intro k h1 h2
        exact hfail k (by omega) (by omega)
      have := ih (attempt + 1) (some (msgs attempt))
        (rotateToNextRPC (recordRequest
          ((waitForRPCToken (selectBestAvailableRPC cfg (script attempt).1.tSel)
            (script attempt).1.tWait (script attempt).1.tWake).2)
          false (script attempt).1.tRec)) (Nat.succ_pos r2) hfail2
      rw [this, cfgUrls_rotateToNextRPC, cfgUrls_failStep]
      have harith : attempt + 1 + (r2 + 1) - 1 = attempt + (r2 + 1 + 1) - 1 := by omega
      rw [harith]

/-- C8: when a chain has N ≥ 1 endpoints and all N attempts fail,
`executeWithRPCRotation` rejects with the single aggregated error built from
exactly the N configured endpoint URLs (which no attempt mutates) and the
last underlying error's message; no intermediate failure and no partial
result is surfaced. -/
theorem C8_exhaustion {α : Type} (chainId : ℤ) (cfg : ChainRPCConfig)
    (script : ℕ → AttemptTimes × Except String α) (msgs : ℕ → String)
    (hfail : ∀ k, k < cfg.endpoints.length → (script k).2 = Except.error (msgs k))
    (hne : 0 < cfg.endpoints.length) :
    (executeWithRPCRotation chainId cfg script).1 =
      Except.error (allFailedMessage chainId (cfg.endpoints.map (fun ep => ep.url))
        (some (msgs (cfg.endpoints.length - 1)))) ∧
    (cfg.endpoints.map (fun ep => ep.url)).length = cfg.endpoints.length := by
  refine ⟨?_, by simp⟩
  have := execLoop_all_fail chainId script msgs cfg.endpoints.length 0 none cfg hne
    (by intro k h0 hk; exact hfail k (by omega))
  simpa [executeWithRPCRotation, getAllRPCUrls] using this

/-- Witness for C8 at a concrete 2-endpoint chain whose attempts all fail
with distinct messages. -/
theorem C8_exhaustion_witness :
    (executeWithRPCRotation 1 c8cfg c8script).1 =
      Except.error (allFailedMessage 1 (c8cfg.endpoints.map (fun ep => ep.url))
        (some (toString (c8cfg.endpoints.length - 1)))) ∧
    (c8cfg.endpoints.map (fun ep => ep.url)).length = c8cfg.endpoints.length :=
  C8_exhaustion 1 c8cfg c8script (fun k => toString k)
    (fun _ _ => rfl) (by simp [c8cfg])

theorem argmaxGo_some_lt (l : List ℚ) : ∀ (i bi : ℕ) (bs : ℚ), bi < i →
    argmaxGo l i bi (some bs) < i + l.length := by
  induction l with
  | nil => intro i bi bs h; simpa [argmaxGo] using h
  | cons s rest ih =>
    intro i bi bs h
    simp only [argmaxGo]
    simp only [List.length_cons]
    split
    · have := ih (i + 1) i s (Nat.lt_succ_self i); omega
    · have := ih (i + 1) bi bs (by omega); omega

theorem argmaxGo_none_lt (l : List ℚ) (i bi : ℕ) (h : l ≠ []) :
    argmaxGo l i bi none < i + l.length := by
  cases l with
  | nil => exact absurd rfl h
  | cons s rest =>
    simp only [argmaxGo, List.length_cons]
    have := argmaxGo_some_lt rest (i + 1) i s (Nat.lt_succ_self i)
    omega

/-- Proactive selection never leaves the index range: the `bestScore`
accumulator starts at `-Infinity`, so the first endpoint always replaces the
initial `bestIndex`, and every later replacement uses a loop index `< n`. -/
theorem selectBestAvailableRPC_idxInv (cfg : ChainRPCConfig)
    (h : cfg.endpoints ≠ []) (t : ℚ) :
    idxInv (selectBestAvailableRPC cfg t) := by
  have hie : cfg.endpoints.isEmpty = false := by
    simpa [List.isEmpty_iff] using h
  unfold selectBestAvailableRPC selectBestRPC idxInv
  simp only [hie, Bool.false_eq_true, if_false]
  rw [selectScan_fst_length]
  have hs : (selectScan t cfg.endpoints).2 ≠ [] := by
    intro hnil
    have := selectScan_snd_length t cfg.endpoints
    rw [hnil] at this
    exact h (List.length_eq_zero.mp this.symm)
  have := argmaxGo_none_lt (selectScan t cfg.endpoints).2 0 cfg.currentIndex hs
  rw [selectScan_snd_length] at this
  simpa using this

theorem rotateToNextRPC_idxInv (cfg : ChainRPCConfig) (h : idxInv cfg) :
    idxInv (rotateToNextRPC cfg) := by
  have hne : cfg.endpoints ≠ [] := by
    intro hnil
    unfold idxInv at h
    rw [hnil] at h
    simp at h
  unfold rotateToNextRPC idxInv
  rw [if_neg (by simpa [List.isEmpty_iff] using hne)]
  dsimp only
  simp only [List.length_set]
  exact Nat.mod_lt _ (by unfold idxInv at h; omega)

theorem recordRequest_idxInv (cfg : ChainRPCConfig) (h : idxInv cfg) (s : Bool) (t : ℚ) :
    idxInv (recordRequest cfg s t) := by
  unfold recordRequest
  by_cases hie : cfg.endpoints.isEmpty
  · simpa [hie]
  · unfold idxInv at h ⊢
    simpa [hie, List.length_set]

theorem resetFailures_idxInv (cfg : ChainRPCConfig) (h : idxInv cfg) :
    idxInv (resetFailures cfg) := by
  unfold idxInv at h ⊢
  simpa [resetFailures]

theorem waitForRPCToken_idxInv (cfg : ChainRPCConfig) (h : idxInv cfg) (t w : ℚ) :
    idxInv ((waitForRPCToken cfg t w).2) := by
  unfold waitForRPCToken
  by_cases hie : cfg.endpoints.isEmpty
  · simpa [hie]
  · unfold idxInv at h ⊢
    simpa [hie, List.length_set]

/-- C10 (amended): *provided the generic `RPC_URL` fallback, whenever it is
set non-empty, parses to at least one URL*, every chain id's lazily created
endpoint configuration has ≥ 1 endpoint with `currentIndex = 0` in range;
every operation preserves `0 ≤ currentIndex < #endpoints`; and an
orchestrated call whose attempts all fail still performs at least one
attempt before rejecting (its aggregated error carries the last attempt's
message, not the no-attempt `null`). -/
theorem C10_config_nonempty_amended (env : RPCEnv) (chainId : ℤ) (now cap rate : ℚ)
    (henv : ∀ g, env.rpcUrl = some g → g ≠ "" → parseRPCUrls (some g) ≠ []) :
    0 < (getRPCUrlsForChain env chainId).length ∧
    idxInv (mkChainConfig (getRPCUrlsForChain env chainId) now cap rate) ∧
    (∀ cfg : ChainRPCConfig, cfg.endpoints ≠ [] → ∀ t, idxInv (selectBestAvailableRPC cfg t)) ∧
    (∀ cfg : ChainRPCConfig, idxInv cfg → idxInv (rotateToNextRPC cfg)) ∧
    (∀ cfg : ChainRPCConfig, idxInv cfg → ∀ s t, idxInv (recordRequest cfg s t)) ∧
    (∀ cfg : ChainRPCConfig, idxInv cfg → idxInv (resetFailures cfg)) ∧
    (∀ cfg : ChainRPCConfig, idxInv cfg → ∀ t w, idxInv ((waitForRPCToken cfg t w).2)) ∧
    (∀ (script : ℕ → AttemptTimes × Except String ℕ) (msgs : ℕ → String),
      (∀ k, k < (getRPCUrlsForChain env chainId).length →
        (script k).2 = Except.error (msgs k)) →
      (executeWithRPCRotation chainId
          (mkChainConfig (getRPCUrlsForChain env chainId) now cap rate) script).1 =
        Except.error (allFailedMessage chainId (getRPCUrlsForChain env chainId)
          (some (msgs ((getRPCUrlsForChain env chainId).length - 1))))) := by
  have hurls : 0 < (getRPCUrlsForChain env chainId).length := by
    unfold getRPCUrlsForChain
    dsimp only
    split
    next h => exact h
    next =>
      split
      next h2 => exact h2
      next =>
        cases hg : env.rpcUrl with
        | none => simp
        | some g =>
          dsimp only
          split
          next hgne => exact List.length_pos.mpr (henv g hg hgne)
          next => simp
  have hmkLen : (mkChainConfig (getRPCUrlsForChain env chainId) now cap rate).endpoints.length =
      (getRPCUrlsForChain env chainId).length := by
    simp [mkChainConfig]
  have hmkUrls : getAllRPCUrls (mkChainConfig (getRPCUrlsForChain env chainId) now cap rate) =
      getRPCUrlsForChain env chainId := by
    unfold getAllRPCUrls mkChainConfig
    dsimp only
    rw [List.map_map]
    exact List.map_id _
  refine ⟨hurls, ?_, ?_, rotateToNextRPC_idxInv, recordRequest_idxInv,
    resetFailures_idxInv, waitForRPCToken_idxInv, ?_⟩
  · unfold idxInv
    rw [hmkLen]
    exact hurls
  · intro cfg hcfg t
    exact selectBestAvailableRPC_idxInv cfg hcfg t
  · intro script msgs hfail
    have := execLoop_all_fail chainId script msgs
      (mkChainConfig (getRPCUrlsForChain env chainId) now cap rate).endpoints.length 0 none
      (mkChainConfig (getRPCUrlsForChain env chainId) now cap rate)
      (by rw [hmkLen]; exact hurls)
      (by intro k h0 hk; exact hfail k (by omega; ))
    rw [executeWithRPCRotation, this, hmkUrls, hmkLen]
    simp

/-- C10 counterexample: with no per-chain list, a chain id (999) outside the
built-in default table, and the generic `RPC_URL` set to `","` (truthy in
JS but parsing to zero URLs), the lazily created configuration has **zero**
endpoints, and the orchestrated call rejects immediately — `maxAttempts = 0`
— without performing a single attempt (the script would have succeeded, yet
the error reports no last error and zero tried endpoints). -/
theorem C10_counterexample :
    getRPCUrlsForChain c10env 999 = [] ∧
    (mkChainConfig (getRPCUrlsForChain c10env 999) 0 50 20).endpoints.length = 0 ∧
    (executeWithRPCRotation 999 (mkChainConfig (getRPCUrlsForChain c10env 999) 0 50 20)
        (fun _ => (zeroTimes, Except.ok 42))).1 =
      Except.error (allFailedMessage 999 [] none) := by
  have h : ("," : String) ≠ "" := by decide
  refine ⟨?_, ?_, ?_⟩ <;>
    norm_num [getRPCUrlsForChain, c10env, parseRPCUrls, jsSplitComma, jsTrim,
      splitOnCommaAux, defaultRPCs, h, mkChainConfig, executeWithRPCRotation,
      execLoop, getAllRPCUrls]

/-- Witness for the amended C10: the fully unset environment for an unknown
chain id (the hardcoded final fallback applies). -/
theorem C10_config_nonempty_amended_witness :
    0 < (getRPCUrlsForChain c10emptyEnv 999).length ∧
    idxInv (mkChainConfig (getRPCUrlsForChain c10emptyEnv 999) 0 50 20) ∧
    (∀ cfg : ChainRPCConfig, cfg.endpoints ≠ [] → ∀ t, idxInv (selectBestAvailableRPC cfg t)) ∧
    (∀ cfg : ChainRPCConfig, idxInv cfg → idxInv (rotateToNextRPC cfg)) ∧
    (∀ cfg : ChainRPCConfig, idxInv cfg → ∀ s t, idxInv (recordRequest cfg s t)) ∧
    (∀ cfg : ChainRPCConfig, idxInv cfg → idxInv (resetFailures cfg)) ∧
    (∀ cfg : ChainRPCConfig, idxInv cfg → ∀ t w, idxInv ((waitForRPCToken cfg t w).2)) ∧
    (∀ (script : ℕ → AttemptTimes × Except String ℕ) (msgs : ℕ → String),
      (∀ k, k < (getRPCUrlsForChain c10emptyEnv 999).length →
        (script k).2 = Except.error (msgs k)) →
      (executeWithRPCRotation 999
          (mkChainConfig (getRPCUrlsForChain c10emptyEnv 999) 0 50 20) script).1 =
        Except.error (allFailedMessage 999 (getRPCUrlsForChain c10emptyEnv 999)
          (some (msgs ((getRPCUrlsForChain c10emptyEnv 999).length - 1))))) :=
  C10_config_nonempty_amended c10emptyEnv 999 0 50 20
    (fun _ hg _ => Option.noConfusion hg)

/-! ## Theorems: the per-chain admission queue (claims C6, C7) -/

theorem qstep_preserves_bound (m : ℕ) {s t : QueueState}
    (hs : s.maxConcurrent = m ∧ s.activeRequests ≤ m) (h : QStep s t) :
    t.maxConcurrent = m ∧ t.activeRequests ≤ m := by
  cases h with
  | executeImmediate hlt =>
    refine ⟨hs.1, ?_⟩
    dsimp only
    omega
  | queueRequest id hge => exact hs
  | complete hpos =>
    unfold completeStep
    dsimp only
    split
    · exact ⟨hs.1, by dsimp only; omega⟩
    · split
      · refine ⟨hs.1, ?_⟩
        dsimp only at *
        omega
      · exact ⟨hs.1, by dsimp only; omega⟩

theorem qstep_preserves_fifo {s t : QueueState}
    (hs : s.started ++ s.pending = s.enqueued) (h : QStep s t) :
    t.started ++ t.pending = t.enqueued := by
  cases h with
  | executeImmediate hlt => exact hs
  | queueRequest id hge =>
    dsimp only
    rw [← List.append_assoc, hs]
  | complete hpos =>
    unfold completeStep
    dsimp only
    split
    · exact hs
    next id rest heq =>
      split
      · dsimp only
        rw [List.append_assoc]
        simpa [heq] using hs
      · exact hs

/-- C6: starting from a fresh queue with `maxConcurrent ≥ 1`, every state
reachable by cooperative interleavings of
`execute`/`executeImmediate`/`onRequestComplete`/`processNextInQueue` steps
satisfies `activeRequests ≤ maxConcurrent` (and `activeRequests ≥ 0`, which
holds by construction in `ℕ`: every decrement is guarded by a paired earlier
increment). -/
theorem C6_active_le_max (m : ℕ) (s : QueueState) (_hm : 1 ≤ m)
    (h : QReach (initQueue m) s) :
    s.activeRequests ≤ s.maxConcurrent ∧ 0 ≤ s.activeRequests := by
  have key : s.maxConcurrent = m ∧ s.activeRequests ≤ m := by
    induction h with
    | refl => exact ⟨rfl, Nat.zero_le m⟩
    | tail _ step ih => exact qstep_preserves_bound m ih step
  exact ⟨by rw [key.1]; exact key.2, Nat.zero_le _⟩

/-- Witness for C6: a queue with `maxConcurrent = 1` after admit, overflow
enqueue, and a completion that drains the queue head. -/
theorem C6_active_le_max_witness :
    ({ maxConcurrent := 1, activeRequests := 1, pending := [],
       started := [7], enqueued := [7] } : QueueState).activeRequests ≤
      ({ maxConcurrent := 1, activeRequests := 1, pending := [],
         started := [7], enqueued := [7] } : QueueState).maxConcurrent ∧
    0 ≤ ({ maxConcurrent := 1, activeRequests := 1, pending := [],
           started := [7], enqueued := [7] } : QueueState).activeRequests :=
  C6_active_le_max 1 _ le_rfl
    (QReach.tail
      (QReach.tail
        (QReach.tail (QReach.refl _)
          (QStep.executeImmediate _ (by decide)))
        (QStep.queueRequest _ 7 (by decide)))
      (QStep.complete _ (by decide)))

/-- C7: FIFO admission — in every reachable queue state the ids already
dequeued (`started`) followed by the ids still pending reproduce the arrival
order (`enqueued`); equivalently `started` is always the initial segment of
the arrival order, so of two operations enqueued into `pending`, the
earlier-enqueued one begins execution no later than the other: the k-th
dequeued operation is exactly the k-th enqueued one. -/
theorem C7_fifo (m : ℕ) (s : QueueState) (h : QReach (initQueue m) s) :
    s.started ++ s.pending = s.enqueued ∧
    s.started = s.enqueued.take s.started.length := by
  have key : s.started ++ s.pending = s.enqueued := by
    induction h with
    | refl => rfl
    | tail _ step ih => exact qstep_preserves_fifo ih step
  exact ⟨key, by rw [← key, List.take_left]⟩

/-- Witness for C7: two overflow enqueues and one completion; the first
enqueued id (7) is the one dequeued. -/
theorem C7_fifo_witness :
    ({ maxConcurrent := 1, activeRequests := 1, pending := [8],
       started := [7], enqueued := [7, 8] } : QueueState).started ++
      ({ maxConcurrent := 1, activeRequests := 1, pending := [8],
         started := [7], enqueued := [7, 8] } : QueueState).pending =
      ({ maxConcurrent := 1, activeRequests := 1, pending := [8],
         started := [7], enqueued := [7, 8] } : QueueState).enqueued ∧
    ({ maxConcurrent := 1, activeRequests := 1, pending := [8],
       started := [7], enqueued := [7, 8] } : QueueState).started =
      ({ maxConcurrent := 1, activeRequests := 1, pending := [8],
         started := [7], enqueued := [7, 8] } : QueueState).enqueued.take
        ({ maxConcurrent := 1, activeRequests := 1, pending := [8],
           started := [7], enqueued := [7, 8] } : QueueState).started.length :=
  C7_fifo 1 _
    (QReach.tail
      (QReach.tail
        (QReach.tail
          (QReach.tail (QReach.refl _)
            (QStep.executeImmediate _ (by decide)))
          (QStep.queueRequest _ 7 (by decide)))
        (QStep.queueRequest _ 8 (by decide)))
      (QStep.complete _ (by decide)))

end LiquidationIndexer
